import Mathlib

/-!
Verification of the receipt-parsing heuristic, the pending-expense state
machine and the in-memory expense store of `src/bot.py` (a Telegram expense
bot), as a shallow embedding in Lean.

Conventions of the embedding:
- Python strings are Lean `String`s; the regex work is done on `List Char`.
- Python floats are modelled as exact rationals (`ℚ`).  The amounts handled
  by the program have at most two decimal digits and the claims only compare
  such decimal values, so the binary rounding of Python floats is irrelevant
  to every property proved here.
- `datetime.now()` is injected as an explicit argument (`now`, `nowIso`,
  `nowMoisAnnee`, ...) wherever the source calls it.
- The four amount regexes and the two date regexes of `parse_ticket_info`
  are embedded as hand-written matchers.  Each matcher implements the
  regex at one start position, and `searchPos` scans start positions left to
  right, which is exactly `re.search` leftmost-match semantics.  The greedy
  sub-patterns (`\d+`, `\s*`, `[:\s]+`) never need backtracking in these six
  regexes: each is followed by a literal or a character class disjoint from
  its own class, so the maximal munch is the only viable munch; the matchers
  therefore take the maximal run directly.  `\d` and `\s` are modelled as the
  ASCII digits and ASCII whitespace (the Unicode extras accepted by Python
  `re` never occur in the texts the claims are about).
-/

/-- ASCII decimal digit, the model of `\d`. -/
def isDigitC (c : Char) : Bool := '0' ≤ c && c ≤ '9'

/-- ASCII whitespace, the model of `\s` (space, tab, newline, CR, VT, FF). -/
def isSpaceC (c : Char) : Bool :=
  c == ' ' || c == '\t' || c == '\n' || c == '\r' || c == '\x0b' || c == '\x0c'

/-- Character-wise ASCII lowercasing, the model of `str.lower()` restricted to
the characters that can influence the six patterns (all of which are ASCII or
the euro sign, untouched by `lower`). -/
def asciiLower (c : Char) : Char :=
  if 'A' ≤ c && c ≤ 'Z' then Char.ofNat (c.toNat + 32) else c

/-- Numeric value of a digit string (the digits of a regex group). -/
def natOfDigits (l : List Char) : ℕ := l.foldl (fun n c => n * 10 + (c.toNat - 48)) 0

/-- The model of `str.replace(',', '.')`: replace every comma by a period. -/
def replaceComma (l : List Char) : List Char := l.map (fun c => if c == ',' then '.' else c)

/-- The capture group of the amount regexes: `(\d+[.,]\d{2})` is one or more
digits, a separator that is a period or a comma, and exactly two digits. -/
structure AmountGroup where
  intPart : List Char
  sep : Char
  d1 : Char
  d2 : Char
deriving DecidableEq, Repr

/-- Matches `(\d+[.,]\d{2})` at the head of `s`, returning the group and the
rest of the input.  `\d+` is taken maximally: a shorter digit run would put a
digit where `[.,]` must match, so the regex backtracking can never succeed
where the maximal run fails. -/
def matchNum (s : List Char) : Option (AmountGroup × List Char) :=
  let p := List.span isDigitC s
  if p.1.isEmpty then none
  else
    match p.2 with
    | sep :: a :: b :: r =>
      if (sep == '.' || sep == ',') && isDigitC a && isDigitC b then
        some (⟨p.1, sep, a, b⟩, r)
      else none
    | _ => none

/-- Pattern 1 of `montant_patterns`, at one start position:
`(\d+[.,]\d{2})\s*€`. -/
def tryPat1 (s : List Char) : Option AmountGroup :=
  match matchNum s with
  | some (g, r) =>
    match r.dropWhile isSpaceC with
    | '€' :: _ => some g
    | _ => none
  | none => none

/-- Pattern 2 of `montant_patterns`, at one start position:
`€\s*(\d+[.,]\d{2})`. -/
def tryPat2 (s : List Char) : Option AmountGroup :=
  match s with
  | '€' :: r => (matchNum (r.dropWhile isSpaceC)).map (·.1)
  | _ => none

/-- Pattern 3 of `montant_patterns`, at one start position:
`total[:\s]+(\d+[.,]\d{2})` (the input is already lowercased). -/
def tryPat3 (s : List Char) : Option AmountGroup :=
  match s with
  | 't' :: 'o' :: 't' :: 'a' :: 'l' :: r =>
    let p := List.span (fun c => c == ':' || isSpaceC c) r
    if p.1.isEmpty then none else (matchNum p.2).map (·.1)
  | _ => none

/-- Pattern 4 of `montant_patterns`, at one start position:
`(\d+[.,]\d{2})\s*eur`. -/
def tryPat4 (s : List Char) : Option AmountGroup :=
  match matchNum s with
  | some (g, r) =>
    match r.dropWhile isSpaceC with
    | 'e' :: 'u' :: 'r' :: _ => some g
    | _ => none
  | none => none

/-- `re.search` applied to one single-position matcher: try every start
position from left to right and return the first success. -/
def searchPos {β : Type} (m : List Char → Option β) : List Char → Option β
  | [] => m []
  | c :: t =>
    match m (c :: t) with
    | some g => some g
    | none => searchPos m t

/-- The `for pattern in montant_patterns: re.search(pattern, text.lower())`
loop of `parse_ticket_info` (bot.py lines 91-96): the first pattern, in the
fixed order 1, 2, 3, 4, that matches anywhere in the lowered text wins. -/
def montantSearch (low : List Char) : Option AmountGroup :=
  match searchPos tryPat1 low with
  | some g => some g
  | none =>
    match searchPos tryPat2 low with
    | some g => some g
    | none =>
      match searchPos tryPat3 low with
      | some g => some g
      | none => searchPos tryPat4 low

/-- The integer worth of an amount group, in hundredths: the group
`"<intPart><sep><d1><d2>"` denotes `intPart` units plus `d1 d2` hundredths. -/
def amountNat (g : AmountGroup) : ℕ :=
  natOfDigits g.intPart * 100 + (g.d1.toNat - 48) * 10 + (g.d2.toNat - 48)

/-- `float(match.group(1).replace(',', '.'))` (bot.py line 94-95): the matched
group always has the shape digits-separator-two-digits, so the conversion is
the exact decimal value of the group. -/
def amountVal (g : AmountGroup) : ℚ := (amountNat g : ℚ) / 100

/-- The date capture groups `(jour, mois, annee)` of the two date regexes. -/
def tryDate4 : List Char → Option (List Char × List Char × List Char)
  | a :: b :: s1 :: c :: d :: s2 :: e :: f :: g :: h :: _ =>
    if isDigitC a && isDigitC b && (s1 == '/' || s1 == '-') &&
       isDigitC c && isDigitC d && (s2 == '/' || s2 == '-') &&
       isDigitC e && isDigitC f && isDigitC g && isDigitC h then
      some ([a, b], [c, d], [e, f, g, h])
    else none
  | _ => none

/-- The 2-digit-year date regex (`\d{2}`, slash-or-dash, `\d{2}`,
slash-or-dash, `\d{2}`) at one start position. -/
def tryDate2 : List Char → Option (List Char × List Char × List Char)
  | a :: b :: s1 :: c :: d :: s2 :: e :: f :: _ =>
    if isDigitC a && isDigitC b && (s1 == '/' || s1 == '-') &&
       isDigitC c && isDigitC d && (s2 == '/' || s2 == '-') &&
       isDigitC e && isDigitC f then
      some ([a, b], [c, d], [e, f])
    else none
  | _ => none

/-- The date loop of `parse_ticket_info` (bot.py lines 104-114): the 4-digit
year pattern (`\d{2}`, slash-or-dash, `\d{2}`, slash-or-dash, `\d{4}`) is
tried first, then the 2-digit year variant; the first match wins, a 2-digit
year is prefixed with `20`, and the result is formatted with slashes as
`jour/mois/annee`. -/
def extractDate (s : List Char) : Option String :=
  match searchPos tryDate4 s with
  | some (j, m, a) => some (String.mk (j ++ '/' :: (m ++ '/' :: a)))
  | none =>
    match searchPos tryDate2 s with
    | some (j, m, a) => some (String.mk (j ++ '/' :: (m ++ '/' :: ('2' :: '0' :: a))))
    | none => none

/-- The dictionary returned by `parse_ticket_info`.  `date` is a plain
`String` because the function always fills it in (the `None` initialisation is
dead by line 118). -/
structure Info where
  montant : Option ℚ
  date : String
  texte_complet : String
deriving DecidableEq, Repr

/-- `parse_ticket_info(text)` (bot.py lines 75-120), with the current date
injected as `now` (the value of `datetime.now().strftime("%d/%m/%Y")`): the
amount loop runs on the lowercased text, the date loop on the raw text, and a
missing date falls back to `now`. -/
def parse_ticket_info (now : String) (text : String) : Info :=
  { montant := (montantSearch (text.data.map asciiLower)).map amountVal
    date := (extractDate text.data).getD now
    texte_complet := text }

/-- The successfully parsed shape accepted by the decimal fragment of the
Python builtin `float`: an optional sign flag (true means negative), the
integer-part digits and the fraction-part digits. -/
def pyFloatParts (s : List Char) : Option (Bool × List Char × List Char) :=
  let t := ((s.dropWhile isSpaceC).reverse.dropWhile isSpaceC).reverse
  let q : Bool × List Char :=
    match t with
    | '-' :: r => (true, r)
    | '+' :: r => (false, r)
    | r => (false, r)
  let p := List.span isDigitC q.2
  match p.2 with
  | [] => if p.1.isEmpty then none else some (q.1, p.1, [])
  | '.' :: r2 =>
    let f := List.span isDigitC r2
    if f.2.isEmpty && !(p.1.isEmpty && f.1.isEmpty) then some (q.1, p.1, f.1) else none
  | _ => none

/-- The rational denoted by a parsed float shape. -/
def pyVal (neg : Bool) (ip fp : List Char) : ℚ :=
  (if neg then -1 else 1) * (natOfDigits (ip ++ fp) : ℚ) / 10 ^ fp.length

/-- Model of the Python builtin `float(s)` on its decimal fragment: optional
surrounding whitespace, an optional sign, digits with at most one point and
at least one digit.  Exponent forms, `inf`, `nan` and underscore digit
separators are accepted by Python but fall outside this model; none of the
claims involves them.  `none` models the `ValueError` raise. -/
def pyFloat (s : List Char) : Option ℚ :=
  (pyFloatParts s).map (fun p => pyVal p.1 p.2.1 p.2.2)

/-- The fixed category list `CATEGORIES` (bot.py lines 23-31). -/
def CATEGORIES : List String :=
  ["Repas professionnels", "Carburant/Déplacements", "Matériel médical",
   "Fournitures", "Formations", "Téléphone/Internet", "Autres"]

/-- One entry of the in-memory store `frais_data`: the dictionary built at
the two commit sites (bot.py lines 265-271 and 297-303).  `timestamp` is the
injected value of `datetime.now().isoformat()`. -/
structure Frais where
  id : ℕ
  date : String
  montant : ℚ
  categorie : String
  timestamp : String
deriving DecidableEq, Repr

/-- The per-conversation `context.user_data` slots the bot uses: the pending
candidate record `pending_frais` and the pending chosen category
`pending_category`. -/
structure UserData where
  pending_frais : Option Info
  pending_category : Option String
deriving DecidableEq, Repr

/-- The user-visible outcome of `handle_photo`. -/
inductive PhotoOutcome where
  | ocrFailed
  | analyzed
deriving DecidableEq, Repr

/-- `handle_photo` (bot.py lines 186-239) after the OCR call, with the OCR
result injected (`none` models `extract_text_from_image` returning `None`).
`if not text` is true for `None` and for the empty string.  On success the
parsed info is stored in `pending_frais`; no other `user_data` slot is
touched (in particular `pending_category` is left as it was). -/
def handle_photo (ocr : Option String) (now : String) (ud : UserData) :
    UserData × PhotoOutcome :=
  match ocr with
  | none => (ud, PhotoOutcome.ocrFailed)
  | some t =>
    if t = "" then (ud, PhotoOutcome.ocrFailed)
    else ({ ud with pending_frais := some (parse_ticket_info now t) }, PhotoOutcome.analyzed)

/-- The user-visible outcome of `handle_category_selection`. -/
inductive CatOutcome where
  | sessionExpired
  | askAmount
  | saved
deriving DecidableEq, Repr

/-- `handle_category_selection` (bot.py lines 241-285).  The callback payload
index is in range by construction of the keyboard, hence `Fin`.  The Python
guard `if not pending['montant']` is true both for `None` and for the float
`0.0`, giving the two `askAmount` branches.  On commit the new record gets
`id = len(frais_data) + 1` and only `pending_frais` is popped
(`pending_category`, if present, survives). -/
def handle_category_selection (catIdx : Fin CATEGORIES.length) (nowIso : String)
    (ud : UserData) (store : List Frais) : UserData × List Frais × CatOutcome :=
  let categorie := CATEGORIES.get catIdx
  match ud.pending_frais with
  | none => (ud, store, CatOutcome.sessionExpired)
  | some pending =>
    match pending.montant with
    | none => ({ ud with pending_category := some categorie }, store, CatOutcome.askAmount)
    | some m =>
      if m = 0 then
        ({ ud with pending_category := some categorie }, store, CatOutcome.askAmount)
      else
        ({ ud with pending_frais := none },
          store ++ [{ id := store.length + 1, date := pending.date, montant := m,
                      categorie := categorie, timestamp := nowIso }],
          CatOutcome.saved)

/-- The outcome of `handle_montant_manuel`.  `crashed` models the uncaught
`TypeError` raised by `pending['date']` when `pending_frais` is absent while
`pending_category` is set: the `except` clause only catches `ValueError`, so
the exception escapes to the application error handler. -/
inductive ManuelOutcome where
  | ignored
  | saved
  | invalidAmount
  | crashed
deriving DecidableEq, Repr

/-- `handle_montant_manuel` (bot.py lines 287-319): runs only when
`pending_category` is set; `float(text.replace(',', '.'))` failing gives the
invalid-amount message and changes nothing; on success the record is
committed with `id = len(frais_data) + 1`, the stored category and the
candidate date, and both pending slots are popped. -/
def handle_montant_manuel (text : String) (nowIso : String) (ud : UserData)
    (store : List Frais) : UserData × List Frais × ManuelOutcome :=
  match ud.pending_category with
  | none => (ud, store, ManuelOutcome.ignored)
  | some categorie =>
    match pyFloat (replaceComma text.data) with
    | none => (ud, store, ManuelOutcome.invalidAmount)
    | some montant =>
      match ud.pending_frais with
      | none => (ud, store, ManuelOutcome.crashed)
      | some pending =>
        (⟨none, none⟩,
          store ++ [{ id := store.length + 1, date := pending.date, montant := montant,
                      categorie := categorie, timestamp := nowIso }],
          ManuelOutcome.saved)

/-- The lookup of `supprimer_command` (bot.py line 447):
`next((f for f in frais_data if f['id'] == frais_id), None)`.  The command
argument is parsed with `int(...)`, hence `ℤ`. -/
def findById (i : ℤ) (store : List Frais) : Option Frais :=
  store.find? (fun f => (f.id : ℤ) == i)

/-- `frais_data.remove(frais_to_remove)` where `frais_to_remove` is the first
record with the given id: removes exactly that first occurrence. -/
def removeFirstById (i : ℤ) : List Frais → List Frais
  | [] => []
  | f :: r => if (f.id : ℤ) == i then r else f :: removeFirstById i r

/-- One store-mutating operation of the bot: a commit (the shared effect of
the two commit sites, which both append with `id = len(frais_data) + 1`) or a
delete (`supprimer_command`, bot.py lines 439-455, which removes the first
record with the given id when present and does nothing otherwise). -/
inductive Op where
  | commit (date : String) (montant : ℚ) (categorie : String) (ts : String)
  | delete (i : ℤ)

/-- The effect of one operation on `frais_data`. -/
def applyOp (store : List Frais) : Op → List Frais
  | Op.commit d m c t => store ++ [{ id := store.length + 1, date := d, montant := m,
                                     categorie := c, timestamp := t }]
  | Op.delete i =>
    match findById i store with
    | some _ => removeFirstById i store
    | none => store

/-- A whole history of commits and deletes run against the initially empty
store. -/
def runOps (ops : List Op) : List Frais := ops.foldl applyOp []

/-- Model of Python `str.zfill(2)`: pad on the left with zeros to length 2,
keeping a leading sign in front of the padding; strings of length at least 2
are returned unchanged. -/
def zfill2 (s : String) : String :=
  match s.data with
  | [] => "00"
  | [c] => if c == '+' || c == '-' then String.mk [c, '0'] else String.mk ['0', c]
  | _ => s

/-- One step of building the `par_categorie` dictionary of `recap_command`
(bot.py lines 345-350): append the record to the bucket of its category,
creating the bucket at the end on first sight (Python dicts preserve
insertion order). -/
def addToGroup (acc : List (String × List Frais)) (f : Frais) : List (String × List Frais) :=
  match acc with
  | [] => [(f.categorie, [f])]
  | (c, fs) :: r => if c = f.categorie then (c, fs ++ [f]) :: r else (c, fs) :: addToGroup r f

/-- The `par_categorie` grouping of `recap_command`. -/
def groupByCat (l : List Frais) : List (String × List Frais) := l.foldl addToGroup []

/-- The user-visible outcome of `recap_command`: either the
`"Aucun frais enregistré pour <filtre>"` message or the recap body, one line
per category with its total and ticket count, plus the grand total. -/
inductive RecapOutcome where
  | aucun (filtre : String)
  | recap (lignes : List (String × ℚ × ℕ)) (total : ℚ)
deriving DecidableEq, Repr

/-- `recap_command` (bot.py lines 327-359), with the current `MM/YYYY` string
and the current year string injected.  With an argument the filter is
`args[0].zfill(2) + "/" + str(datetime.now().year)`; the records kept are
those whose date string ends with the filter. -/
def recap_command (args : List String) (nowMoisAnnee : String) (anneeCourante : String)
    (store : List Frais) : RecapOutcome :=
  let filtre := match args with
    | [] => nowMoisAnnee
    | a :: _ => zfill2 a ++ "/" ++ anneeCourante
  let frais_mois := store.filter (fun f => filtre.data.isSuffixOf f.date.data)
  match frais_mois with
  | [] => RecapOutcome.aucun filtre
  | _ =>
    RecapOutcome.recap
      ((groupByCat frais_mois).map (fun cl => (cl.1, (cl.2.map (·.montant)).sum, cl.2.length)))
      ((frais_mois.map (·.montant)).sum)

/-- The outcome of `export_command`.  `raisedKeyError` models the uncaught
exception of the empty-selection case: `pd.DataFrame([])` has no columns at
all, so the column selection on bot.py line 404 raises `KeyError` before any
message is sent.  `envoye` carries the filename, the exported
`[date, categorie, montant]` rows and the trailing TOTAL value. -/
inductive ExportOutcome where
  | rien
  | raisedKeyError
  | envoye (filename : String) (rows : List (String × String × ℚ)) (total : ℚ)
deriving DecidableEq, Repr

/-- `export_command` (bot.py lines 384-423), with the current `MM/YYYY`
filter string and the current `MM_YYYY` filename fragment injected.  An empty
store is reported as `rien` (`"Aucun frais à exporter."`); otherwise the
records are filtered by the year argument (or by the current month), and an
empty selection reaches the pandas column selection, which raises. -/
def export_command (args : List String) (nowFiltre : String) (nowFichier : String)
    (store : List Frais) : ExportOutcome :=
  match store with
  | [] => ExportOutcome.rien
  | _ =>
    let sel : List Frais × String := match args with
      | a :: _ => (store.filter (fun f => a.data.isSuffixOf f.date.data),
                   "frais_pro_" ++ a ++ ".xlsx")
      | [] => (store.filter (fun f => nowFiltre.data.isSuffixOf f.date.data),
               "frais_pro_" ++ nowFichier ++ ".xlsx")
    match sel.1 with
    | [] => ExportOutcome.raisedKeyError
    | _ =>
      ExportOutcome.envoye sel.2
        (sel.1.map (fun f => (f.date, f.categorie, f.montant)))
        ((sel.1.map (·.montant)).sum)

/-- One step of building the `par_categorie` totals of `stats_command`
(bot.py lines 369-372): add the amount to the bucket of the category,
creating the bucket at the end on first sight. -/
def updateAssoc (acc : List (String × ℚ)) (c : String) (m : ℚ) : List (String × ℚ) :=
  match acc with
  | [] => [(c, m)]
  | (c', m') :: r => if c' = c then (c', m' + m) :: r else (c', m') :: updateAssoc r c m

/-- The per-category totals of `stats_command`, in first-appearance order. -/
def perCategorie (store : List Frais) : List (String × ℚ) :=
  store.foldl (fun acc f => updateAssoc acc f.categorie f.montant) []

/-- The outcome of `stats_command`: the empty-store message, or one line per
category carrying its name, its total and its percentage of the grand total,
plus the grand total. -/
inductive StatsOutcome where
  | vide
  | stats (lignes : List (String × ℚ × ℚ)) (total : ℚ)
deriving DecidableEq, Repr

/-- `stats_command` (bot.py lines 361-382): the category totals are sorted by
total in descending order (Python `sorted` with `reverse=True` is a stable
sort, modelled by `mergeSort` with the reversed comparison), and each line
gets `montant / total_general * 100` as its percentage, or `0` when the grand
total is not positive. -/
def stats_command (store : List Frais) : StatsOutcome :=
  match store with
  | [] => StatsOutcome.vide
  | _ =>
    let pc := perCategorie store
    let total := (pc.map (·.2)).sum
    StatsOutcome.stats
      ((pc.mergeSort (fun a b => decide (b.2 ≤ a.2))).map
        (fun cm => (cm.1, cm.2, if 0 < total then cm.2 / total * 100 else 0)))
      total

/-- Commit operations, the histories for which ids stay sequential. -/
def Op.isCommit : Op → Bool
  | Op.commit _ _ _ _ => true
  | Op.delete _ => false

theorem foldl_commits_ids (ops : List Op) (s : List Frais)
    (h : ∀ op ∈ ops, op.isCommit = true) :
    (ops.foldl applyOp s).map (fun f => f.id) =
      s.map (fun f => f.id) ++ List.range' (s.length + 1) ops.length := by
  induction ops generalizing s with
  | nil => simp
  | cons op rest ih =>
    match op with
    | Op.delete i => exact absurd (h _ (List.mem_cons_self _ _)) (by simp [Op.isCommit])
    | Op.commit d m c t =>
      have hr : ∀ o ∈ rest, o.isCommit = true := fun o ho => h o (List.mem_cons_of_mem _ ho)
      simp only [List.foldl_cons]
      rw [ih (applyOp s (Op.commit d m c t)) hr]
      simp [applyOp, List.range'_succ, List.append_assoc]

/-- C1, counterexample.  The claim says every committed expense gets
`id = store size + 1` and that ids are unique and never reuse a deleted id.
In the history commit, commit, delete id 1, commit, the last commit is
assigned `id = 1 + 1 = 2`, which both reuses an id of an ever-created expense
and collides with the id of the expense still in the store: the final store
carries ids `[2, 2]`. -/
theorem C1_counterexample :
    ((runOps [Op.commit "01/01/2024" 10 "Autres" "t1",
              Op.commit "02/01/2024" 20 "Repas professionnels" "t2",
              Op.delete 1,
              Op.commit "03/01/2024" 30 "Fournitures" "t3"]).map (fun f => f.id) = [2, 2]) ∧
    ¬ ((runOps [Op.commit "01/01/2024" 10 "Autres" "t1",
                Op.commit "02/01/2024" 20 "Repas professionnels" "t2",
                Op.delete 1,
                Op.commit "03/01/2024" 30 "Fournitures" "t3"]).map (fun f => f.id)).Nodup := by
  constructor
  · decide
  · decide

/-- C1, amended.  Every committed expense receives `id = current store size
plus 1` (both commit sites append exactly this record).  In a history made of
commits only, the resulting ids are exactly `1, ..., n` and are unique; after
a deletion the running size drops, so the sequential-id scheme can reassign
an id created earlier and deleted, and can even duplicate an id still present
in the store. -/
theorem C1_amended (ops : List Op) (h : ∀ op ∈ ops, op.isCommit = true) :
    ((runOps ops).map (fun f => f.id) = List.range' 1 ops.length) ∧
    ((runOps ops).map (fun f => f.id)).Nodup ∧
    (∀ (store : List Frais) (d : String) (m : ℚ) (c t : String),
      applyOp store (Op.commit d m c t) =
        store ++ [{ id := store.length + 1, date := d, montant := m,
                    categorie := c, timestamp := t }]) := by
  have hids : (runOps ops).map (fun f => f.id) = List.range' 1 ops.length := by
    have := foldl_commits_ids ops [] h
    simpa [runOps] using this
  refine ⟨hids, ?_, fun store d m c t => rfl⟩
  rw [hids]
  exact List.nodup_range' 1 ops.length

/-- C1, witness for the amended theorem at a concrete two-commit history. -/
theorem C1_amended_witness :
    ((runOps [Op.commit "01/01/2024" 10 "Autres" "t1",
              Op.commit "02/01/2024" 20 "Repas professionnels" "t2"]).map (fun f => f.id) =
      List.range' 1 2) ∧
    ((runOps [Op.commit "01/01/2024" 10 "Autres" "t1",
              Op.commit "02/01/2024" 20 "Repas professionnels" "t2"]).map (fun f => f.id)).Nodup ∧
    (∀ (store : List Frais) (d : String) (m : ℚ) (c t : String),
      applyOp store (Op.commit d m c t) =
        store ++ [{ id := store.length + 1, date := d, montant := m,
                    categorie := c, timestamp := t }]) :=
  C1_amended [Op.commit "01/01/2024" 10 "Autres" "t1",
              Op.commit "02/01/2024" 20 "Repas professionnels" "t2"] (by decide)

/-- C2: the claim (and the spec) say an export or recap whose filter matches
no stored record ends in a user-visible nothing-found message.  `recap_command`
does answer with its message, and an export on an empty store does, but an
export whose year filter matches nothing on a non-empty store reaches
`pd.DataFrame([])`, whose column selection raises `KeyError`: the handler
raises instead of sending a message, contradicting the claim, the handling of
the empty store one branch above, and the error-handling design of the spec. -/
theorem C2_export_keyerror :
    (export_command ["2023"] "10/2026" "10_2026"
        [{ id := 1, date := "05/03/2024", montant := 10, categorie := "Autres",
           timestamp := "t" }] = ExportOutcome.raisedKeyError) ∧
    (recap_command ["7"] "10/2026" "2026"
        [{ id := 1, date := "05/03/2024", montant := 10, categorie := "Autres",
           timestamp := "t" }] = RecapOutcome.aucun "07/2026") ∧
    (export_command [] "10/2026" "10_2026" [] = ExportOutcome.rien) := by
  refine ⟨?_, ?_, ?_⟩ <;> decide

/-- C3, counterexample.  The claim says that for every text containing both
`"total: 9,99"` and `"3,00€"` the extracted amount is 3.00.  The text
`"total: 9,99€ 3,00€"` contains both substrings, yet `"9,99€"` is itself a
match of pattern 1 and lies further left, so the extracted amount is 9.99. -/
theorem C3_counterexample :
    ("total: 9,99".data <:+: "total: 9,99€ 3,00€".data) ∧
    ("3,00€".data <:+: "total: 9,99€ 3,00€".data) ∧
    (parse_ticket_info "12/10/2026" "total: 9,99€ 3,00€").montant = some (999 / 100) ∧
    (999 / 100 : ℚ) ≠ 3 := by
  refine ⟨by decide, by decide, ?_, by norm_num⟩
  have hs : montantSearch ("total: 9,99€ 3,00€".data.map asciiLower) =
      some ⟨['9'], ',', '9', '9'⟩ := by decide
  have hv : amountNat ⟨['9'], ',', '9', '9'⟩ = 999 := by decide
  show (montantSearch ("total: 9,99€ 3,00€".data.map asciiLower)).map amountVal =
    some (999 / 100)
  rw [hs, Option.map_some', amountVal, hv]
  norm_num

/-- C3, amended.  Amount extraction tries the four patterns in the fixed
order and uses the leftmost match of the first pattern that matches anywhere
in the lowercased text, with `,` normalised to `.` before conversion; so
whenever pattern 1 (digits-separator-two-digits then euro sign) matches
anywhere, its leftmost match is the result and pattern 3 (the `total`
pattern) is never consulted.  In a text containing both `"total: 9,99"` and
`"3,00€"`, the winner is therefore the leftmost pattern-1 match, which is
3.00 exactly when no pattern-1 match occurs earlier, as in
`"total: 9,99 puis 3,00€"`. -/
theorem C3_amended (text now : String) (g : AmountGroup)
    (h : searchPos tryPat1 (text.data.map asciiLower) = some g) :
    (parse_ticket_info now text).montant = some (amountVal g) ∧
    (parse_ticket_info now "total: 9,99 puis 3,00€").montant = some 3 := by
  constructor
  · simp [parse_ticket_info, montantSearch, h]
  · have hs : montantSearch ("total: 9,99 puis 3,00€".data.map asciiLower) =
        some ⟨['3'], ',', '0', '0'⟩ := by decide
    have hv : amountNat ⟨['3'], ',', '0', '0'⟩ = 300 := by decide
    show (montantSearch ("total: 9,99 puis 3,00€".data.map asciiLower)).map amountVal =
      some 3
    rw [hs, Option.map_some', amountVal, hv]
    norm_num

/-- C3, witness for the amended theorem: on `"12,34€"` pattern 1 matches and
its group is the extracted amount. -/
theorem C3_amended_witness :
    (parse_ticket_info "01/01/2025" "12,34€").montant =
      some (amountVal ⟨['1', '2'], ',', '3', '4'⟩) ∧
    (parse_ticket_info "01/01/2025" "total: 9,99 puis 3,00€").montant = some 3 :=
  C3_amended "12,34€" "01/01/2025" ⟨['1', '2'], ',', '3', '4'⟩ (by decide)

/-- C4, counterexample.  The claim says a successfully processed photo
overwrites all prior pending state, so that no previously chosen category
from an unfinished manual-amount flow survives.  Starting from the
manual-amount state (a pending candidate and the chosen category `"Autres"`),
processing a new photo succeeds, yet the chosen category is still there
afterwards: `handle_photo` stores the new candidate but never pops
`pending_category`. -/
theorem C4_counterexample :
    ((handle_photo (some "ticket 12,00€ 01/02/2024") "12/10/2026"
        ⟨some ⟨none, "05/03/2024", "vieux ticket"⟩, some "Autres"⟩).1.pending_category =
      some "Autres") ∧
    ((handle_photo (some "ticket 12,00€ 01/02/2024") "12/10/2026"
        ⟨some ⟨none, "05/03/2024", "vieux ticket"⟩, some "Autres"⟩).2 =
      PhotoOutcome.analyzed) := by
  constructor
  · decide
  · decide

/-- C4, amended.  Processing a new photo whose OCR succeeds unconditionally
overwrites the pending candidate record with the newly parsed one and
re-prompts for a category; but the previously chosen category of an
unfinished AwaitingManualAmount flow is not cleared and survives the photo
event, so the conversation is not left in a pure AwaitingCategory state (a
free-text number typed next would be committed against the stale category). -/
theorem C4_amended (ocr now : String) (ud : UserData) (h : ocr ≠ "") :
    handle_photo (some ocr) now ud =
      (⟨some (parse_ticket_info now ocr), ud.pending_category⟩, PhotoOutcome.analyzed) := by
  simp [handle_photo, h]

/-- C4, witness for the amended theorem. -/
theorem C4_amended_witness :
    handle_photo (some "3,00€") "12/10/2026" ⟨none, some "Autres"⟩ =
      (⟨some (parse_ticket_info "12/10/2026" "3,00€"), some "Autres"⟩,
        PhotoOutcome.analyzed) :=
  C4_amended "3,00€" "12/10/2026" ⟨none, some "Autres"⟩ (by decide)

/-- C5: date extraction tries the 4-digit-year pattern before the 2-digit
variant, takes the first match, expands a 2-digit year by prefixing `20`, and
in particular `parse("no amount here, date 05/03/24")` gives no amount and
the date `05/03/2024`. -/
theorem C5_date_priority :
    (∀ (text : String) (j m a : List Char),
      searchPos tryDate4 text.data = some (j, m, a) →
      extractDate text.data = some (String.mk (j ++ '/' :: (m ++ '/' :: a)))) ∧
    (∀ (text : String) (j m a : List Char),
      searchPos tryDate4 text.data = none →
      searchPos tryDate2 text.data = some (j, m, a) →
      extractDate text.data = some (String.mk (j ++ '/' :: (m ++ '/' :: ('2' :: '0' :: a))))) ∧
    (∀ now : String,
      parse_ticket_info now "no amount here, date 05/03/24" =
        ⟨none, "05/03/2024", "no amount here, date 05/03/24"⟩) := by
  refine ⟨?_, ?_, ?_⟩
  · intro text j m a h
    unfold extractDate
    rw [h]
  · intro text j m a h4 h2
    unfold extractDate
    rw [h4, h2]
  · intro now
    have h1 : montantSearch ("no amount here, date 05/03/24".data.map asciiLower) = none := by
      decide
    have h2 : extractDate "no amount here, date 05/03/24".data = some "05/03/2024" := by
      decide
    unfold parse_ticket_info
    rw [h1, h2]
    rfl

/-- C5, witness: the conjuncts applied at concrete texts. -/
theorem C5_date_priority_witness :
    extractDate "le 01/02/2024".data =
      some (String.mk (['0', '1'] ++ '/' :: (['0', '2'] ++ '/' :: ['2', '0', '2', '4']))) ∧
    extractDate "le 05/03/24".data =
      some (String.mk (['0', '5'] ++ '/' :: (['0', '3'] ++ '/' :: ('2' :: '0' :: ['2', '4'])))) ∧
    parse_ticket_info "09/10/2026" "no amount here, date 05/03/24" =
      ⟨none, "05/03/2024", "no amount here, date 05/03/24"⟩ :=
  ⟨C5_date_priority.1 "le 01/02/2024" ['0', '1'] ['0', '2'] ['2', '0', '2', '4'] (by decide),
   C5_date_priority.2.1 "le 05/03/24" ['0', '5'] ['0', '3'] ['2', '4'] (by decide) (by decide),
   C5_date_priority.2.2 "09/10/2026"⟩

/-- C6: `parse_ticket_info` is a total function (the embedding is a Lean
function, and no branch of the source can raise); its `date` field is always
populated, equal to the injected current date when no date pattern matches,
and its amount is `none` when none of the four amount patterns matches. -/
theorem C6_parse_total (now text : String) :
    (extractDate text.data = none → (parse_ticket_info now text).date = now) ∧
    ((searchPos tryPat1 (text.data.map asciiLower) = none ∧
      searchPos tryPat2 (text.data.map asciiLower) = none ∧
      searchPos tryPat3 (text.data.map asciiLower) = none ∧
      searchPos tryPat4 (text.data.map asciiLower) = none) →
      (parse_ticket_info now text).montant = none) ∧
    ((parse_ticket_info now text).date = now ∨
      ∃ d, extractDate text.data = some d ∧ (parse_ticket_info now text).date = d) := by
  refine ⟨?_, ?_, ?_⟩
  · intro h
    simp [parse_ticket_info, h]
  · rintro ⟨h1, h2, h3, h4⟩
    show (montantSearch (text.data.map asciiLower)).map amountVal = none
    rw [montantSearch, h1, h2, h3, h4]
    rfl
  · cases h : extractDate text.data with
    | none => left; simp [parse_ticket_info, h]
    | some d => right; exact ⟨d, rfl, by simp [parse_ticket_info, h]⟩

/-- C6, witness: a text with neither an amount nor a date. -/
theorem C6_parse_total_witness :
    ((extractDate "bonjour".data = none →
      (parse_ticket_info "12/10/2026" "bonjour").date = "12/10/2026") ∧
    ((searchPos tryPat1 ("bonjour".data.map asciiLower) = none ∧
      searchPos tryPat2 ("bonjour".data.map asciiLower) = none ∧
      searchPos tryPat3 ("bonjour".data.map asciiLower) = none ∧
      searchPos tryPat4 ("bonjour".data.map asciiLower) = none) →
      (parse_ticket_info "12/10/2026" "bonjour").montant = none) ∧
    ((parse_ticket_info "12/10/2026" "bonjour").date = "12/10/2026" ∨
      ∃ d, extractDate "bonjour".data = some d ∧
        (parse_ticket_info "12/10/2026" "bonjour").date = d)) ∧
    extractDate "bonjour".data = none ∧
    (parse_ticket_info "12/10/2026" "bonjour").date = "12/10/2026" ∧
    (parse_ticket_info "12/10/2026" "bonjour").montant = none :=
  ⟨C6_parse_total "12/10/2026" "bonjour", by decide,
   (C6_parse_total "12/10/2026" "bonjour").1 (by decide),
   (C6_parse_total "12/10/2026" "bonjour").2.1 ⟨by decide, by decide, by decide, by decide⟩⟩

/-- C7: in the manual-amount state (a stored category and a pending
candidate), numeric text (commas accepted as decimal separator) commits an
expense with the stored category, the typed amount and the candidate date,
clearing both pending slots; non-numeric text leaves pending state and store
unchanged and answers with the invalid-amount message.  The last conjunct is
the concrete conversion `"7,5"` to `7.5` of the spec scenario. -/
theorem C7_manual_amount (text nowIso : String) (ud : UserData) (store : List Frais)
    (categorie : String) (pending : Info)
    (hc : ud.pending_category = some categorie) (hp : ud.pending_frais = some pending) :
    (∀ m : ℚ, pyFloat (replaceComma text.data) = some m →
      handle_montant_manuel text nowIso ud store =
        (⟨none, none⟩,
         store ++ [{ id := store.length + 1, date := pending.date, montant := m,
                     categorie := categorie, timestamp := nowIso }],
         ManuelOutcome.saved)) ∧
    (pyFloat (replaceComma text.data) = none →
      handle_montant_manuel text nowIso ud store = (ud, store, ManuelOutcome.invalidAmount)) ∧
    pyFloat (replaceComma "7,5".data) = some (15 / 2) := by
  refine ⟨?_, ?_, ?_⟩
  · intro m hm
    simp [handle_montant_manuel, hc, hp, hm]
  · intro hm
    simp [handle_montant_manuel, hc, hp, hm]
  · have hparts : pyFloatParts (replaceComma "7,5".data) = some (false, ['7'], ['5']) := by
      decide
    have hnat : natOfDigits (['7'] ++ ['5']) = 75 := by decide
    show (pyFloatParts (replaceComma "7,5".data)).map (fun p => pyVal p.1 p.2.1 p.2.2) =
      some (15 / 2)
    rw [hparts, Option.map_some']
    show some (pyVal false ['7'] ['5']) = some (15 / 2)
    rw [pyVal, hnat]
    norm_num

/-- C7, witness: the numeric text `"7,5"` commits 7.5 with the stored
category, and the non-numeric text `"abc"` changes nothing. -/
theorem C7_manual_amount_witness :
    (handle_montant_manuel "7,5" "ts" ⟨some ⟨none, "05/03/2024", "txt"⟩, some "Autres"⟩ [] =
      (⟨none, none⟩,
       [{ id := 1, date := "05/03/2024", montant := 15 / 2, categorie := "Autres",
          timestamp := "ts" }],
       ManuelOutcome.saved)) ∧
    (handle_montant_manuel "abc" "ts" ⟨some ⟨none, "05/03/2024", "txt"⟩, some "Autres"⟩ [] =
      (⟨some ⟨none, "05/03/2024", "txt"⟩, some "Autres"⟩, [], ManuelOutcome.invalidAmount)) := by
  have hf : pyFloat (replaceComma "7,5".data) = some (15 / 2 : ℚ) :=
    (C7_manual_amount "7,5" "ts" ⟨some ⟨none, "05/03/2024", "txt"⟩, some "Autres"⟩ []
      "Autres" ⟨none, "05/03/2024", "txt"⟩ rfl rfl).2.2
  exact ⟨(C7_manual_amount "7,5" "ts" ⟨some ⟨none, "05/03/2024", "txt"⟩, some "Autres"⟩ []
            "Autres" ⟨none, "05/03/2024", "txt"⟩ rfl rfl).1 (15 / 2) hf,
         (C7_manual_amount "abc" "ts" ⟨some ⟨none, "05/03/2024", "txt"⟩, some "Autres"⟩ []
            "Autres" ⟨none, "05/03/2024", "txt"⟩ rfl rfl).2.1 (by decide)⟩

/-- C10: a pending candidate whose detected amount is exactly 0 is treated by
the category-selection step like a missing amount (the Python guard
`if not pending['montant']` is also true of `0.0`): choosing a category
stores it and asks for a manual amount instead of committing an expense with
amount 0; and a text containing `"0,00€"` indeed parses to the amount 0. -/
theorem C10_zero_amount (ud : UserData) (store : List Frais)
    (catIdx : Fin CATEGORIES.length) (nowIso : String) (pending : Info)
    (hp : ud.pending_frais = some pending) (hm : pending.montant = some 0) :
    handle_category_selection catIdx nowIso ud store =
      ({ ud with pending_category := some (CATEGORIES.get catIdx) }, store,
        CatOutcome.askAmount) ∧
    (∀ now : String, (parse_ticket_info now "montant 0,00€ merci").montant = some 0) := by
  constructor
  · simp [handle_category_selection, hp, hm]
  · intro now
    have hs : montantSearch ("montant 0,00€ merci".data.map asciiLower) =
        some ⟨['0'], ',', '0', '0'⟩ := by decide
    have hv : amountNat ⟨['0'], ',', '0', '0'⟩ = 0 := by decide
    show (montantSearch ("montant 0,00€ merci".data.map asciiLower)).map amountVal = some 0
    rw [hs, Option.map_some', amountVal, hv]
    norm_num

/-- C10, witness at a concrete zero-amount candidate and the category
`Autres`. -/
theorem C10_zero_amount_witness :
    handle_category_selection ⟨6, by decide⟩ "ts"
        ⟨some ⟨some 0, "05/03/2024", "t"⟩, none⟩ [] =
      (⟨some ⟨some 0, "05/03/2024", "t"⟩, some "Autres"⟩, [], CatOutcome.askAmount) ∧
    (∀ now : String, (parse_ticket_info now "montant 0,00€ merci").montant = some 0) :=
  C10_zero_amount ⟨some ⟨some 0, "05/03/2024", "t"⟩, none⟩ [] ⟨6, by decide⟩ "ts"
    ⟨some 0, "05/03/2024", "t"⟩ rfl rfl

theorem find?_append_fresh (store : List Frais) (x : Frais)
    (hfresh : ∀ f ∈ store, f.id ≠ x.id) :
    List.find? (fun f => (f.id : ℤ) == (x.id : ℤ)) (store ++ [x]) = some x := by
  rw [List.find?_append]
  have h1 : List.find? (fun f => (f.id : ℤ) == (x.id : ℤ)) store = none := by
    rw [List.find?_eq_none]
    intro f hf
    simp only [beq_iff_eq, Int.natCast_inj]
    exact hfresh f hf
  rw [h1]
  simp [List.find?]

/-- C8, counterexample.  The claim quantifies over every store state; after a
deletion the store can already contain an expense whose id equals the next
assigned `store.size + 1`, and `findById` (a first-match linear scan) then
returns that earlier record instead of the newly committed one.  Concretely:
after commit, commit, delete id 1, the store is one record with id 2 and
amount 20; committing a pending candidate with amount 3 and category `Autres`
assigns id 2 again, and `findById 2` answers the old record (amount 20,
category `Repas professionnels`), not the committed one. -/
theorem C8_counterexample :
    ((handle_category_selection ⟨6, by decide⟩ "t3"
        ⟨some ⟨some 3, "03/01/2024", "txt"⟩, none⟩
        (runOps [Op.commit "01/01/2024" 10 "Autres" "t1",
                 Op.commit "02/01/2024" 20 "Repas professionnels" "t2",
                 Op.delete 1])).2.2 = CatOutcome.saved) ∧
    ((findById 2 ((handle_category_selection ⟨6, by decide⟩ "t3"
        ⟨some ⟨some 3, "03/01/2024", "txt"⟩, none⟩
        (runOps [Op.commit "01/01/2024" 10 "Autres" "t1",
                 Op.commit "02/01/2024" 20 "Repas professionnels" "t2",
                 Op.delete 1])).2.1)).map (fun f => f.montant) = some 20) ∧
    ((findById 2 ((handle_category_selection ⟨6, by decide⟩ "t3"
        ⟨some ⟨some 3, "03/01/2024", "txt"⟩, none⟩
        (runOps [Op.commit "01/01/2024" 10 "Autres" "t1",
                 Op.commit "02/01/2024" 20 "Repas professionnels" "t2",
                 Op.delete 1])).2.1)).map (fun f => f.categorie) =
      some "Repas professionnels") ∧
    (20 : ℚ) ≠ 3 ∧ "Repas professionnels" ≠ "Autres" := by
  refine ⟨?_, ?_, ?_, ?_, ?_⟩ <;> decide

/-- C8, amended.  The round-trip holds for every store in which no existing
expense already bears the id about to be assigned (true in particular of any
deletion-free history): selecting a category for a pending candidate with a
known non-zero amount appends the expense with id `store.size + 1`, the
candidate date and amount and the chosen category, clears the pending
candidate, and `findById` on the assigned id returns exactly that record.
After deletions the assigned id can collide with an existing one and the
lookup then returns the earlier record (see the counterexample). -/
theorem C8_amended (ud : UserData) (store : List Frais)
    (catIdx : Fin CATEGORIES.length) (nowIso : String) (pending : Info) (m : ℚ)
    (hp : ud.pending_frais = some pending) (hm : pending.montant = some m) (h0 : m ≠ 0)
    (hfresh : ∀ f ∈ store, f.id ≠ store.length + 1) :
    handle_category_selection catIdx nowIso ud store =
      ({ ud with pending_frais := none },
       store ++ [{ id := store.length + 1, date := pending.date, montant := m,
                   categorie := CATEGORIES.get catIdx, timestamp := nowIso }],
       CatOutcome.saved) ∧
    findById ((store.length + 1 : ℕ) : ℤ)
        (store ++ [{ id := store.length + 1, date := pending.date, montant := m,
                     categorie := CATEGORIES.get catIdx, timestamp := nowIso }]) =
      some { id := store.length + 1, date := pending.date, montant := m,
             categorie := CATEGORIES.get catIdx, timestamp := nowIso } := by
  constructor
  · simp [handle_category_selection, hp, hm, h0]
  · exact find?_append_fresh store
      { id := store.length + 1, date := pending.date, montant := m,
        categorie := CATEGORIES.get catIdx, timestamp := nowIso } hfresh

/-- C8, witness for the amended theorem: a one-record deletion-free store and
a pending candidate with amount 3. -/
theorem C8_amended_witness :
    handle_category_selection ⟨3, by decide⟩ "t2"
        ⟨some ⟨some 3, "03/01/2024", "txt"⟩, none⟩
        [{ id := 1, date := "01/01/2024", montant := 10, categorie := "Autres",
           timestamp := "t1" }] =
      (⟨none, none⟩,
       [{ id := 1, date := "01/01/2024", montant := 10, categorie := "Autres",
          timestamp := "t1" },
        { id := 2, date := "03/01/2024", montant := 3, categorie := "Fournitures",
          timestamp := "t2" }],
       CatOutcome.saved) ∧
    findById 2
        [{ id := 1, date := "01/01/2024", montant := 10, categorie := "Autres",
           timestamp := "t1" },
         { id := 2, date := "03/01/2024", montant := 3, categorie := "Fournitures",
           timestamp := "t2" }] =
      some { id := 2, date := "03/01/2024", montant := 3, categorie := "Fournitures",
             timestamp := "t2" } :=
  C8_amended ⟨some ⟨some 3, "03/01/2024", "txt"⟩, none⟩
    [{ id := 1, date := "01/01/2024", montant := 10, categorie := "Autres",
       timestamp := "t1" }]
    ⟨3, by decide⟩ "t2" ⟨some 3, "03/01/2024", "txt"⟩ 3 rfl rfl (by norm_num) (by decide)

theorem updateAssoc_sum (acc : List (String × ℚ)) (c : String) (m : ℚ) :
    ((updateAssoc acc c m).map (fun x => x.2)).sum = ((acc.map (fun x => x.2)).sum) + m := by
  induction acc with
  | nil => simp [updateAssoc]
  | cons hd tl ih =>
    obtain ⟨c', m'⟩ := hd
    by_cases hc : c' = c
    · simp [updateAssoc, hc]
      ring
    · simp [updateAssoc, hc, ih]
      ring

theorem perCategorie_sum (store : List Frais) :
    ((perCategorie store).map (fun x => x.2)).sum = (store.map (fun f => f.montant)).sum := by
  suffices hgen : ∀ (l : List Frais) (acc : List (String × ℚ)),
      (((l.foldl (fun acc f => updateAssoc acc f.categorie f.montant) acc).map
        (fun x => x.2)).sum) = (acc.map (fun x => x.2)).sum + (l.map (fun f => f.montant)).sum by
    simpa [perCategorie] using hgen store []
  intro l
  induction l with
  | nil => simp
  | cons f tl ih =>
    intro acc
    simp only [List.foldl_cons, List.map_cons, List.sum_cons]
    rw [ih, updateAssoc_sum]
    ring

theorem sum_map_div_mul (l : List (String × ℚ)) (t : ℚ) :
    (l.map (fun cm => cm.2 / t * 100)).sum = (l.map (fun x => x.2)).sum / t * 100 := by
  induction l with
  | nil => simp
  | cons hd tl ih => simp [ih, add_div, add_mul]

/-- The store of the C9 witness. -/
def statsStoreTemoin : List Frais :=
  [{ id := 1, date := "01/01/2024", montant := 10,
     categorie := "Repas professionnels", timestamp := "t1" },
   { id := 2, date := "02/01/2024", montant := 30, categorie := "Autres",
     timestamp := "t2" }]

/-- C9: on a non-empty store, `stats_command` reports the per-category totals
(a permutation of the grouped totals) sorted in descending order of total,
each with its percentage of the grand total; a non-positive grand total makes
every percentage 0 (no division by zero is attempted), and a positive grand
total makes the percentages sum to exactly 100 (the source rounds only for
display). -/
theorem C9_category_stats (store : List Frais) (h : store ≠ []) :
    ∃ (lignes : List (String × ℚ × ℚ)) (total : ℚ),
      stats_command store = StatsOutcome.stats lignes total ∧
      total = (store.map (fun f => f.montant)).sum ∧
      (lignes.map (fun x => (x.1, x.2.1))).Perm (perCategorie store) ∧
      (∀ x ∈ lignes, x.2.2 = if 0 < total then x.2.1 / total * 100 else 0) ∧
      List.Pairwise (fun a b => b.2.1 ≤ a.2.1) lignes ∧
      (total = 0 → ∀ x ∈ lignes, x.2.2 = 0) ∧
      (0 < total → (lignes.map (fun x => x.2.2)).sum = 100) := by
  obtain ⟨f, tl, rfl⟩ : ∃ f tl, store = f :: tl := by
    cases store with
    | nil => exact absurd rfl h
    | cons f tl => exact ⟨f, tl, rfl⟩
  have hstats : stats_command (f :: tl) = StatsOutcome.stats
      (((perCategorie (f :: tl)).mergeSort (fun a b => decide (b.2 ≤ a.2))).map
        (fun cm : String × ℚ => (cm.1, cm.2,
          if 0 < ((perCategorie (f :: tl)).map (fun x => x.2)).sum
          then cm.2 / ((perCategorie (f :: tl)).map (fun x => x.2)).sum * 100 else 0)))
      (((perCategorie (f :: tl)).map (fun x => x.2)).sum) := rfl
  refine ⟨_, _, hstats, perCategorie_sum (f :: tl), ?_, ?_, ?_, ?_, ?_⟩
  · rw [List.map_map]
    have hid : ((fun x : String × ℚ × ℚ => (x.1, x.2.1)) ∘
        (fun cm : String × ℚ => (cm.1, cm.2,
          if 0 < ((perCategorie (f :: tl)).map (fun x => x.2)).sum
          then cm.2 / ((perCategorie (f :: tl)).map (fun x => x.2)).sum * 100 else 0))) =
        id := by
      funext cm
      rfl
    rw [hid, List.map_id]
    exact List.mergeSort_perm (perCategorie (f :: tl)) _
  · intro x hx
    rcases List.mem_map.1 hx with ⟨cm, _, rfl⟩
    rfl
  · have hs := @List.sorted_mergeSort (String × ℚ) (fun a b => decide (b.2 ≤ a.2))
      (by
        intro a b c hab hbc
        simp only [decide_eq_true_eq] at *
        exact le_trans hbc hab)
      (by
        intro a b
        simp only [Bool.or_eq_true, decide_eq_true_eq]
        exact le_total b.2 a.2)
      (perCategorie (f :: tl))
    have hs' : List.Pairwise (fun a b : String × ℚ => b.2 ≤ a.2)
        ((perCategorie (f :: tl)).mergeSort (fun a b => decide (b.2 ≤ a.2))) :=
      hs.imp (fun hab => of_decide_eq_true hab)
    exact hs'.map _ (fun a b hab => hab)
  · intro h0 x hx
    rcases List.mem_map.1 hx with ⟨cm, _, rfl⟩
    simp only [h0]
    norm_num
  · intro hT
    rw [List.map_map]
    have hcomp : ((fun x : String × ℚ × ℚ => x.2.2) ∘
        (fun cm : String × ℚ => (cm.1, cm.2,
          if 0 < ((perCategorie (f :: tl)).map (fun x => x.2)).sum
          then cm.2 / ((perCategorie (f :: tl)).map (fun x => x.2)).sum * 100 else 0))) =
        (fun cm : String × ℚ =>
          cm.2 / ((perCategorie (f :: tl)).map (fun x => x.2)).sum * 100) := by
      funext cm
      simp [hT]
    rw [hcomp, sum_map_div_mul]
    have hperm : ((((perCategorie (f :: tl)).mergeSort
        (fun a b => decide (b.2 ≤ a.2))).map (fun x => x.2)).sum) =
        (((perCategorie (f :: tl)).map (fun x => x.2)).sum) :=
      ((List.mergeSort_perm (perCategorie (f :: tl)) _).map _).sum_eq
    rw [hperm, div_self (ne_of_gt hT), one_mul]

/-- C9, witness at a concrete two-category store with positive total. -/
theorem C9_category_stats_witness :
    ∃ (lignes : List (String × ℚ × ℚ)) (total : ℚ),
      stats_command statsStoreTemoin = StatsOutcome.stats lignes total ∧
      total = (statsStoreTemoin.map (fun f => f.montant)).sum ∧
      (lignes.map (fun x => (x.1, x.2.1))).Perm (perCategorie statsStoreTemoin) ∧
      (∀ x ∈ lignes, x.2.2 = if 0 < total then x.2.1 / total * 100 else 0) ∧
      List.Pairwise (fun a b => b.2.1 ≤ a.2.1) lignes ∧
      (total = 0 → ∀ x ∈ lignes, x.2.2 = 0) ∧
      (0 < total → (lignes.map (fun x => x.2.2)).sum = 100) :=
  C9_category_stats statsStoreTemoin (by decide)
